import Mathlib

/-!
Shallow embedding of the cross-section fitting and evaluation subsystem of
`scripts/Xsec_aux_functions.py` (arts-crossfit), together with theorems
settling the specification claims about it.

Modelling conventions:
* Python floats are modelled by `ℝ`; where NaN/inf behaviour matters
  (validity filtering in `fit_xsec_data`, NaN-skipping reductions in
  `calc_Rsquare`) the value space is enriched: `FVal` classifies a float as
  finite / +inf / -inf / NaN, and NaN-able scalars are `Option ℝ`
  (`none` = NaN).
* `scipy.linalg.lstsq` is an external library call; it is modelled by an
  abstract solver parameter `lstsq` handed the design matrix rows and the
  right-hand side exactly as the code builds them, and, where a claim is
  about the least-squares property itself, by the predicates `IsLSQSol`
  (minimiser of the residual sum of squares) and `IsMinNormLSQSol` (the
  minimum-norm minimiser, which is what LAPACK gelsd returns).
* Vectorisation over the per-band frequency axis is pointwise: the
  per-frequency-bin coefficient vector is a `List ℝ` of length 6.
-/

namespace XsecAux

/-- Speed of light in m/s, from the source constant `c0`. -/
def c0 : ℝ := 299792458.0

/-- Classification of an IEEE double as carried through numpy arrays:
finite value, positive infinity, negative infinity, or NaN. -/
inductive FVal
  | finite (x : ℝ)
  | inf
  | neginf
  | nan

/-- True exactly on the two infinities, as `np.isinf`. -/
def FVal.isinf : FVal → Bool
  | .inf => true
  | .neginf => true
  | _ => false

/-- True exactly on NaN, as `np.isnan`. -/
def FVal.isnan : FVal → Bool
  | .nan => true
  | _ => false

/-- Underlying real of a finite value (junk 0 on non-finite values; it is
only read after the validity filter has kept the finite samples). -/
def FVal.toReal : FVal → ℝ
  | .finite x => x
  | _ => 0

/-- Base-10 logarithm on classified floats, as `np.log10`: positive finite
arguments give the finite logarithm, `log10 0 = -inf`, negative arguments
give NaN, `log10 inf = inf`, and `-inf`/NaN give NaN. -/
noncomputable def log10F : FVal → FVal
  | .finite x => if 0 < x then .finite (Real.logb 10 x) else if x = 0 then .neginf else .nan
  | .inf => .inf
  | .neginf => .nan
  | .nan => .nan

/-- Square root on classified floats, as `np.sqrt`: non-negative finite
arguments give the finite root, negative arguments give NaN, `sqrt inf = inf`,
and `-inf`/NaN give NaN. -/
noncomputable def sqrtF : FVal → FVal
  | .finite x => if 0 ≤ x then .finite (Real.sqrt x) else .nan
  | .inf => .inf
  | .neginf => .nan
  | .nan => .nan

/-- Embeds `calculate_xsec` (per frequency bin): build the basis vector
`[1, T, log10 P, T^2, T*log10 P, (log10 P)^2]`, multiply entrywise with the
six coefficients, sum, and square. -/
noncomputable def calculate_xsec (T P : ℝ) (coeffs : List ℝ) : ℝ :=
  let logP := Real.logb 10 P
  let poly : List ℝ := [1, T, logP, T ^ 2, T * logP, logP ^ 2]
  ((List.zipWith (fun ci pi => ci * pi) coeffs poly).sum) ^ 2

/-- Embeds `xsec_derivative` (per frequency bin): the analytic partial
derivatives of the squared reconstruction with respect to T and P. -/
noncomputable def xsec_derivative (T P : ℝ) (coeffs : List ℝ) : ℝ × ℝ :=
  let p00 := coeffs.getD 0 0
  let p10 := coeffs.getD 1 0
  let p01 := coeffs.getD 2 0
  let p20 := coeffs.getD 3 0
  let p11 := coeffs.getD 4 0
  let p02 := coeffs.getD 5 0
  let log10 := Real.log 10
  let logP := Real.log P / log10
  let Plog := P * log10
  (2 * (p10 + 2 * p20 * T + p11 * logP)
      * (p00 + p10 * T + p20 * T ^ 2 + p01 * logP + p11 * T * logP + p02 * logP ^ 2),
   2 * (p01 / Plog + p11 * T / Plog + 2 * p02 * logP / Plog)
      * (p00 + p10 * T + p20 * T ^ 2 + p01 * logP + p11 * T * logP + p02 * logP ^ 2))

/-- Embeds `calculate_xsec_fullmodel` (per frequency bin): inside the fitted
envelope evaluate the model directly; outside, clamp each axis independently
to the envelope and extrapolate linearly with the analytic derivatives. -/
noncomputable def calculate_xsec_fullmodel (T P : ℝ) (coeffs : List ℝ)
    (minT maxT minP maxP : ℝ) : ℝ :=
  if P < minP ∨ P > maxP ∨ T < minT ∨ T > maxT then
    let P0 := if P < minP then minP else if P > maxP then maxP else P
    let T0 := if T < minT then minT else if T > maxT then maxT else T
    let xsec_0 := calculate_xsec T0 P0 coeffs
    let d := xsec_derivative T0 P0 coeffs
    xsec_0 + d.1 * (T - T0) + d.2 * (P - P0)
  else
    calculate_xsec T P coeffs

/-- Clamping of a coordinate to a closed interval, used to state the
extrapolation claim: the nearest point of `[lo, hi]`. -/
noncomputable def clampR (lo hi x : ℝ) : ℝ := max lo (min hi x)

/-- Type of the external least-squares solver (`scipy.linalg.lstsq`): rows of
the design matrix and the right-hand side in, then the solution vector, the
summed residual, the effective rank and the singular values out. -/
def LstsqFun : Type := List (List ℝ) → List ℝ → List ℝ × ℝ × ℕ × List ℝ

/-- Design-matrix rows of `fit_poly22`: `np.ones((n, 6))` with columns 1-5
overwritten by `x, y, x^2, x*y, y^2`. -/
def poly22_design (xdata ydata : List ℝ) : List (List ℝ) :=
  List.zipWith (fun a b => [1, a, b, a ^ 2, a * b, b ^ 2]) xdata ydata

/-- Design-matrix rows of `fit_poly11` exactly as the source builds them:
`np.ones((n, 6))` with ONLY columns 1 and 2 overwritten by `x` and `y`, so
columns 0, 3, 4 and 5 all stay 1. -/
def poly11_design (xdata ydata : List ℝ) : List (List ℝ) :=
  List.zipWith (fun a b => [1, a, b, 1, 1, 1]) xdata ydata

/-- Design-matrix rows of the three-column bilinear model `[1, x, y]` that
the docstring of `fit_poly11` (and the spec) describe. -/
def poly11_design_documented (xdata ydata : List ℝ) : List (List ℝ) :=
  List.zipWith (fun a b => [1, a, b]) xdata ydata

/-- Design-matrix rows of `fit_poly2`: `[1, x, x^2]`. -/
def poly2_design (xdata : List ℝ) : List (List ℝ) :=
  xdata.map (fun a => [1, a, a ^ 2])

/-- Design-matrix rows of `fit_poly1`: `[1, x]`. -/
def poly1_design (xdata : List ℝ) : List (List ℝ) :=
  xdata.map (fun a => [1, a])

/-- Embeds `fit_poly22`: solve the 2d quadratic design by least squares. -/
def fit_poly22 (lstsq : LstsqFun) (xdata ydata zdata : List ℝ) :
    List ℝ × ℝ × ℕ × List ℝ :=
  lstsq (poly22_design xdata ydata) zdata

/-- Embeds `fit_poly11`: solve the (six-column, see `poly11_design`) design
by least squares. -/
def fit_poly11 (lstsq : LstsqFun) (xdata ydata zdata : List ℝ) :
    List ℝ × ℝ × ℕ × List ℝ :=
  lstsq (poly11_design xdata ydata) zdata

/-- Embeds `fit_poly2`: solve the 1d quadratic design by least squares. -/
def fit_poly2 (lstsq : LstsqFun) (xdata zdata : List ℝ) :
    List ℝ × ℝ × ℕ × List ℝ :=
  lstsq (poly2_design xdata) zdata

/-- Embeds `fit_poly1`: solve the 1d linear design by least squares. -/
def fit_poly1 (lstsq : LstsqFun) (xdata zdata : List ℝ) :
    List ℝ × ℝ × ℕ × List ℝ :=
  lstsq (poly1_design xdata) zdata

/-- Maximum of a list of reals, as the python builtin `max` on a nonempty
sequence (junk 0 on the empty list, which the code never reaches). -/
def vmax : List ℝ → ℝ
  | [] => 0
  | a :: l => l.foldl max a

/-- Minimum of a list of reals, as the python builtin `min` on a nonempty
sequence (junk 0 on the empty list, which the code never reaches). -/
def vmin : List ℝ → ℝ
  | [] => 0
  | a :: l => l.foldl min a

/-- Arithmetic mean, as `np.mean`. -/
noncomputable def listMean (l : List ℝ) : ℝ := l.sum / l.length

/-- The three parallel input arrays zipped into per-sample triples
`(T, P, Xsec)`. -/
def zip3F (T P Xsec : List FVal) : List (FVal × FVal × FVal) :=
  List.zipWith3 (fun t p x => (t, p, x)) T P Xsec

/-- Per-sample bad-value test of `fit_xsec_data`: a sample is bad when `T`,
`log10 P` or `sqrt Xsec` is infinite or NaN
(`logic_bad = logic_inf | logic_nan`). -/
noncomputable def isbadF : FVal × FVal × FVal → Bool
  | (t, p, x) =>
    (t.isinf || (log10F p).isinf || (sqrtF x).isinf)
      || (t.isnan || (log10F p).isnan || (sqrtF x).isnan)

/-- Number of bad samples, `np.sum(logic_bad)`. -/
noncomputable def badCountF (T P Xsec : List FVal) : ℕ :=
  ((zip3F T P Xsec).map isbadF).count true

/-- The samples kept after removing bad values. -/
noncomputable def validData (T P Xsec : List FVal) : List (FVal × FVal × FVal) :=
  (zip3F T P Xsec).filter (fun tr => !isbadF tr)

/-- Valid temperatures, `xData = T[~logic_bad]`. -/
noncomputable def xDataF (T P Xsec : List FVal) : List ℝ :=
  (validData T P Xsec).map (fun tr => tr.1.toReal)

/-- Valid log-pressures, `yData = log10(P)[~logic_bad]`. -/
noncomputable def yDataF (T P Xsec : List FVal) : List ℝ :=
  (validData T P Xsec).map (fun tr => (log10F tr.2.1).toReal)

/-- Valid square-root cross sections, `zData = sqrt(Xsec)[~logic_bad]`. -/
noncomputable def zDataF (T P Xsec : List FVal) : List ℝ :=
  (validData T P Xsec).map (fun tr => (sqrtF tr.2.2).toReal)

/-- Valid sample count `Ndata`. -/
noncomputable def NdataF (T P Xsec : List FVal) : ℕ :=
  (validData T P Xsec).length

/-- Spread of the valid log-pressures, `Delta_logP`. -/
noncomputable def DeltaLogPOf (T P Xsec : List FVal) : ℝ :=
  vmax (yDataF T P Xsec) - vmin (yDataF T P Xsec)

/-- Spread of the valid temperatures, `Delta_T`. -/
noncomputable def DeltaTOf (T P Xsec : List FVal) : ℝ :=
  vmax (xDataF T P Xsec) - vmin (xDataF T P Xsec)

/-- The per-band fit record (`fit_result` dictionary of `fit_xsec_data`).
NaN diagnostics are `none`; the pressure/temperature envelope bounds are
classified floats because the degenerate record stores infinite sentinels. -/
structure FitResult where
  formula : String
  coeff_names : List String
  coefficients : List ℝ
  residuum : Option ℝ
  rank : Option ℕ
  sgl_val : Option (List ℝ)
  MinP : FVal
  MaxP : FVal
  MinT : FVal
  MaxT : FVal
  NumberOfPoints : ℕ

/-- The constant string stored under the `formula` key. -/
def fitFormula : String := "p00 + p10*x + p01*y + p20*x**2 + p11*x*y + p02*y**2"

/-- The constant list stored under the `coeff_names` key. -/
def fitCoeffNames : List String := ["p00", "p10", "p01", "p20", "p11", "p02"]

/-- Embeds `fit_xsec_data`: transform to `(T, log10 P, sqrt Xsec)`, drop bad
samples, pick the model family from the data spread via the priority chain of
the source, fit it (zero-filling unused coefficient slots), and record the
envelope; with no valid sample at all, return the degenerate record. -/
noncomputable def fit_xsec_data (lstsq : LstsqFun) (T P Xsec : List FVal)
    (min_deltaLogP min_deltaT : ℝ) : FitResult :=
  if badCountF T P Xsec < T.length then
    let xData := xDataF T P Xsec
    let yData := yDataF T P Xsec
    let zData := zDataF T P Xsec
    let Ndata := NdataF T P Xsec
    let Delta_logP := DeltaLogPOf T P Xsec
    let Delta_T := DeltaTOf T P Xsec
    let fit : List ℝ × Option ℝ × Option ℕ × Option (List ℝ) :=
      if Delta_logP ≥ min_deltaLogP ∧ Delta_T > min_deltaT ∧ Ndata > 5 then
        let r := fit_poly22 lstsq xData yData zData
        (r.1, some r.2.1, some r.2.2.1, some r.2.2.2)
      else if Delta_logP ≥ min_deltaLogP ∧ Delta_T > min_deltaT ∧ Ndata > 2 then
        let r := fit_poly11 lstsq xData yData zData
        ([r.1.getD 0 0, r.1.getD 1 0, r.1.getD 2 0, 0, 0, 0],
         some r.2.1, some r.2.2.1, some r.2.2.2)
      else if Delta_logP < min_deltaLogP ∧ Delta_T > min_deltaT ∧ Ndata > 2 then
        let r := fit_poly2 lstsq xData zData
        ([r.1.getD 0 0, r.1.getD 1 0, 0, r.1.getD 2 0, 0, 0],
         some r.2.1, some r.2.2.1, some r.2.2.2)
      else if Delta_logP < min_deltaLogP ∧ Delta_T > min_deltaT ∧ Ndata > 1 then
        let r := fit_poly1 lstsq xData zData
        ([r.1.getD 0 0, r.1.getD 1 0, 0, 0, 0, 0],
         some r.2.1, some r.2.2.1, some r.2.2.2)
      else if Delta_logP > min_deltaLogP ∧ Delta_T < min_deltaT ∧ Ndata > 2 then
        let r := fit_poly2 lstsq yData zData
        ([r.1.getD 0 0, 0, r.1.getD 1 0, 0, 0, r.1.getD 2 0],
         some r.2.1, some r.2.2.1, some r.2.2.2)
      else if Delta_logP > min_deltaLogP ∧ Delta_T < min_deltaT ∧ Ndata > 1 then
        let r := fit_poly1 lstsq yData zData
        ([r.1.getD 0 0, 0, r.1.getD 1 0, 0, 0, 0],
         some r.2.1, some r.2.2.1, some r.2.2.2)
      else
        let m := listMean zData
        ([m, 0, 0, 0, 0, 0],
         some ((zData.map (fun zv => (zv - m) ^ 2)).sum), none, none)
    { formula := fitFormula
      coeff_names := fitCoeffNames
      coefficients := fit.1
      residuum := fit.2.1
      rank := fit.2.2.1
      sgl_val := fit.2.2.2
      MinP := FVal.finite (vmin (yData.map (fun yv => (10 : ℝ) ^ yv)))
      MaxP := FVal.finite (vmax (yData.map (fun yv => (10 : ℝ) ^ yv)))
      MinT := FVal.finite (vmin xData)
      MaxT := FVal.finite (vmax xData)
      NumberOfPoints := Ndata }
  else
    { formula := fitFormula
      coeff_names := fitCoeffNames
      coefficients := [0, 0, 0, 0, 0, 0]
      residuum := none
      rank := none
      sgl_val := none
      MinP := FVal.inf
      MaxP := FVal.neginf
      MinT := FVal.inf
      MaxT := FVal.neginf
      NumberOfPoints := 0 }

/-- The seven model families of the selection chain, plus the degenerate
no-valid-sample outcome. -/
inductive FitBranch
  | poly22
  | poly11
  | poly2T
  | poly1T
  | poly2P
  | poly1P
  | constantFit
  | degenerate
deriving DecidableEq

/-- The branch the selection chain of `fit_xsec_data` picks from the data
spreads and the valid sample count, condition for condition. -/
noncomputable def selectBranch (min_deltaLogP min_deltaT Delta_logP Delta_T : ℝ)
    (Ndata : ℕ) : FitBranch :=
  if Delta_logP ≥ min_deltaLogP ∧ Delta_T > min_deltaT ∧ Ndata > 5 then .poly22
  else if Delta_logP ≥ min_deltaLogP ∧ Delta_T > min_deltaT ∧ Ndata > 2 then .poly11
  else if Delta_logP < min_deltaLogP ∧ Delta_T > min_deltaT ∧ Ndata > 2 then .poly2T
  else if Delta_logP < min_deltaLogP ∧ Delta_T > min_deltaT ∧ Ndata > 1 then .poly1T
  else if Delta_logP > min_deltaLogP ∧ Delta_T < min_deltaT ∧ Ndata > 2 then .poly2P
  else if Delta_logP > min_deltaLogP ∧ Delta_T < min_deltaT ∧ Ndata > 1 then .poly1P
  else .constantFit

/-- The branch `fit_xsec_data` takes on the given inputs. -/
noncomputable def branchOf (T P Xsec : List FVal) (min_deltaLogP min_deltaT : ℝ) :
    FitBranch :=
  if badCountF T P Xsec < T.length then
    selectBranch min_deltaLogP min_deltaT (DeltaLogPOf T P Xsec) (DeltaTOf T P Xsec)
      (NdataF T P Xsec)
  else .degenerate

/-- Coefficient positions (in the fixed order `p00 p10 p01 p20 p11 p02`)
that the given sub-model leaves unused. -/
def unusedPositions : FitBranch → List ℕ
  | .poly22 => []
  | .poly11 => [3, 4, 5]
  | .poly2T => [2, 4, 5]
  | .poly1T => [2, 3, 4, 5]
  | .poly2P => [1, 3, 4]
  | .poly1P => [1, 3, 4, 5]
  | .constantFit => [1, 2, 3, 4, 5]
  | .degenerate => [0, 1, 2, 3, 4, 5]

/-- NaN-propagating subtraction on NaN-able scalars (`none` = NaN). -/
def osub : Option ℝ → Option ℝ → Option ℝ
  | some a, some b => some (a - b)
  | _, _ => none

/-- NaN-propagating squaring on NaN-able scalars. -/
def osq : Option ℝ → Option ℝ
  | some a => some (a ^ 2)
  | none => none

/-- Sum skipping NaNs, as `np.nansum`. -/
def nansum (l : List (Option ℝ)) : ℝ := (l.filterMap id).sum

/-- Mean skipping NaNs, as `np.nanmean` (NaN when every entry is NaN). -/
noncomputable def nanmean (l : List (Option ℝ)) : Option ℝ :=
  let v := l.filterMap id
  if v.length = 0 then none else some (v.sum / v.length)

/-- Embeds `calc_Rsquare`, the adjusted R-square statistic. Note the source
sets `n = len(y)`, the TOTAL length of `y`, NaN entries included; when
`SST == 0` or `n - Ncoeffs == 0` it poisons the formula with NaN (here:
returns `none`). -/
noncomputable def calc_Rsquare (y yfit : List (Option ℝ)) (Ncoeffs : ℕ) : Option ℝ :=
  let Delta_y := List.zipWith osub y yfit
  let Var_y := y.map (fun yi => osub yi (nanmean y))
  let SSE := nansum (Delta_y.map osq)
  let SST := nansum (Var_y.map osq)
  let n := y.length
  if SST = 0 ∨ (n : ℤ) - (Ncoeffs : ℤ) = 0 then none
  else some (1 - SSE * ((n : ℝ) - 1) / (SST * ((n : ℝ) - (Ncoeffs : ℝ))))

/-- Modelled from the words of the claim for comparison (not from the source):
the adjusted R-square with `n` taken as the count of non-NaN entries of `y`,
returning NaN when `SST = 0` or `n = k`. -/
noncomputable def adjusted_r_squared_claimed (y yfit : List (Option ℝ)) (k : ℕ) :
    Option ℝ :=
  let SSE := nansum ((List.zipWith osub y yfit).map osq)
  let SST := nansum ((y.map (fun yi => osub yi (nanmean y))).map osq)
  let n := (y.filterMap id).length
  if SST = 0 ∨ n = k then none
  else some (1 - SSE * ((n : ℝ) - 1) / (SST * ((n : ℝ) - (k : ℝ))))

/-- One fitted spectral band as `calculate_cross_sections` consumes it: the
native frequency grid (Hz, ascending), one 6-slot coefficient vector per
frequency bin, and the stored fit envelope. -/
structure BandData where
  grid : List ℝ
  coeffs : List (List ℝ)
  MinP : ℝ
  MaxP : ℝ
  MinT : ℝ
  MaxT : ℝ

/-- Piecewise-linear interpolation through consecutive grid points (the
in-range part of `scipy.interpolate.interp1d` on an ascending grid). -/
noncomputable def interp_linear : List (ℝ × ℝ) → ℝ → ℝ
  | [], _ => 0
  | [(_, yv)], _ => yv
  | (x1, y1) :: (x2, y2) :: rest, t =>
    if t ≤ x2 then y1 + (y2 - y1) * (t - x1) / (x2 - x1)
    else interp_linear ((x2, y2) :: rest) t

/-- Models `interp1d(xs, ys, fill_value=0., bounds_error=False)` on an
ascending grid: zero outside `[xs.headI, xs.getLastD 0]`, linear inside. -/
noncomputable def interp1d_fill0 (xs ys : List ℝ) (t : ℝ) : ℝ :=
  if t < xs.headI ∨ xs.getLastD 0 < t then 0
  else interp_linear (xs.zip ys) t

/-- Contribution of one band at one target frequency `t` (Hz): evaluate the
band per frequency bin with the extrapolation-aware model, then interpolate
the per-bin values onto `t`, zero outside the native range of the band. -/
noncomputable def bandContribution (band : BandData) (temperature pressure t : ℝ) : ℝ :=
  interp1d_fill0 band.grid
    (band.coeffs.map (fun cv =>
      calculate_xsec_fullmodel temperature pressure cv band.MinT band.MaxT band.MinP band.MaxP))
    t

/-- Embeds `calculate_cross_sections`: convert the target wavenumbers
(cm^-1) to Hz with `c0 * 100`, start from zeros shaped like the target grid,
and accumulate the interpolated contribution of every band. -/
noncomputable def calculate_cross_sections (wvn_user : List ℝ) (bands : List BandData)
    (temperature pressure : ℝ) : List ℝ :=
  let freq_user := wvn_user.map (fun w => w * c0 * 100)
  bands.foldl
    (fun acc band =>
      List.zipWith (fun a b => a + b) acc
        (freq_user.map (bandContribution band temperature pressure)))
    (wvn_user.map (fun _ => 0))

/-- Dot product of two equally long real lists. -/
def dotL (a b : List ℝ) : ℝ := (List.zipWith (fun u v => u * v) a b).sum

/-- Sum of squares of a real list. -/
def sumSq (l : List ℝ) : ℝ := (l.map (fun t => t ^ 2)).sum

/-- Residual vector `A p - b` of a candidate solution, row by row. -/
def residualsL (A : List (List ℝ)) (b p : List ℝ) : List ℝ :=
  List.zipWith (fun row bi => dotL row p - bi) A b

/-- Least-squares solution: among the vectors of its own length, `p`
minimises the residual sum of squares `norm-squared (A p - b)`. -/
def IsLSQSol (A : List (List ℝ)) (b p : List ℝ) : Prop :=
  ∀ q : List ℝ, q.length = p.length →
    sumSq (residualsL A b p) ≤ sumSq (residualsL A b q)

/-- Minimum-norm least-squares solution, the vector LAPACK gelsd (and hence
`scipy.linalg.lstsq`) returns: a least-squares solution of smallest euclidean
norm among all least-squares solutions. -/
def IsMinNormLSQSol (A : List (List ℝ)) (b p : List ℝ) : Prop :=
  IsLSQSol A b p ∧
    ∀ q : List ℝ, q.length = p.length → IsLSQSol A b q → sumSq p ≤ sumSq q

/-! ## Theorems -/

/-- C4: for every real temperature, every positive pressure and every 6-slot
coefficient vector, `calculate_xsec` returns a non-negative cross section:
the reconstruction squares the basis dot product. -/
theorem C4_calculate_xsec_nonneg (T P : ℝ) (coeffs : List ℝ)
    (hlen : coeffs.length = 6) (hP : 0 < P) :
    0 ≤ calculate_xsec T P coeffs := by
  simp only [calculate_xsec]
  positivity

/-- Witness for C4 at the concrete input T = 0, P = 1, zero coefficients. -/
theorem C4_witness :
    0 ≤ calculate_xsec 0 1 [0, 0, 0, 0, 0, 0] :=
  C4_calculate_xsec_nonneg 0 1 [0, 0, 0, 0, 0, 0] rfl (by norm_num)

/-- C9 (implicit): linear extrapolation outside the fitted envelope does not
preserve non-negativity: with coefficients `p10 = 1` (others zero), envelope
T in `[1, 10]`, P in `[1, 100]`, the extrapolated value at `(T, P) = (-1, 10)`
is `-3 < 0`, although the interior formula is a square. -/
theorem C9_extrapolation_can_be_negative :
    calculate_xsec_fullmodel (-1) 10 [0, 1, 0, 0, 0, 0] 1 10 1 100 < 0 := by
  have hc : ((10 : ℝ) < 1 ∨ (10 : ℝ) > 100 ∨ (-1 : ℝ) < 1 ∨ (-1 : ℝ) > 10) := by
    norm_num
  simp only [calculate_xsec_fullmodel, calculate_xsec, xsec_derivative]
  rw [if_pos hc]
  norm_num

/-- C2: with a well-formed envelope and positive pressure, the
extrapolation-aware evaluator agrees with `calculate_xsec` strictly inside
the rectangle, and anywhere else equals the boundary value plus the analytic
gradient times the offset from the independently clamped point. -/
theorem C2_fullmodel_extrapolation (T P : ℝ) (coeffs : List ℝ) (minT maxT minP maxP : ℝ)
    (hlen : coeffs.length = 6) (hT : minT ≤ maxT) (hPe : minP ≤ maxP) (hP : 0 < P) :
    ((minT < T ∧ T < maxT ∧ minP < P ∧ P < maxP) →
      calculate_xsec_fullmodel T P coeffs minT maxT minP maxP = calculate_xsec T P coeffs) ∧
    (¬(minT < T ∧ T < maxT ∧ minP < P ∧ P < maxP) →
      calculate_xsec_fullmodel T P coeffs minT maxT minP maxP =
        calculate_xsec (clampR minT maxT T) (clampR minP maxP P) coeffs
          + (xsec_derivative (clampR minT maxT T) (clampR minP maxP P) coeffs).1
              * (T - clampR minT maxT T)
          + (xsec_derivative (clampR minT maxT T) (clampR minP maxP P) coeffs).2
              * (P - clampR minP maxP P)) := by
  constructor
  · rintro ⟨h1, h2, h3, h4⟩
    have hnot : ¬(P < minP ∨ P > maxP ∨ T < minT ∨ T > maxT) := by
      push_neg
      exact ⟨by linarith, by linarith, by linarith, by linarith⟩
    simp only [calculate_xsec_fullmodel]
    rw [if_neg hnot]
  · intro hout
    by_cases hcond : P < minP ∨ P > maxP ∨ T < minT ∨ T > maxT
    · have hP0 : (if P < minP then minP else if P > maxP then maxP else P)
          = clampR minP maxP P := by
        unfold clampR
        rcases lt_or_le P minP with h | h
        · rw [if_pos h, min_eq_right (by linarith), max_eq_left (by linarith)]
        · rw [if_neg (not_lt.mpr h)]
          rcases lt_or_le maxP P with h2 | h2
          · rw [if_pos h2, min_eq_left (by linarith), max_eq_right (by linarith)]
          · rw [if_neg (not_lt.mpr h2), min_eq_right h2, max_eq_right h]
      have hT0 : (if T < minT then minT else if T > maxT then maxT else T)
          = clampR minT maxT T := by
        unfold clampR
        rcases lt_or_le T minT with h | h
        · rw [if_pos h, min_eq_right (by linarith), max_eq_left (by linarith)]
        · rw [if_neg (not_lt.mpr h)]
          rcases lt_or_le maxT T with h2 | h2
          · rw [if_pos h2, min_eq_left (by linarith), max_eq_right (by linarith)]
          · rw [if_neg (not_lt.mpr h2), min_eq_right h2, max_eq_right h]
      simp only [calculate_xsec_fullmodel]
      rw [if_pos hcond, hP0, hT0]
    · push_neg at hcond
      obtain ⟨h1, h2, h3, h4⟩ := hcond
      have hc1 : clampR minP maxP P = P := by
        unfold clampR
        rw [min_eq_right h2, max_eq_right h1]
      have hc2 : clampR minT maxT T = T := by
        unfold clampR
        rw [min_eq_right h4, max_eq_right h3]
      simp only [calculate_xsec_fullmodel]
      rw [if_neg (by push_neg; exact ⟨h1, h2, h3, h4⟩), hc1, hc2]
      ring

/-- Witness for C2 at the concrete input T = 5, P = 10, zero coefficients,
envelope T in `[0, 10]`, P in `[1, 100]`: the point is strictly inside. -/
theorem C2_witness :
    calculate_xsec_fullmodel 5 10 [0, 0, 0, 0, 0, 0] 0 10 1 100
      = calculate_xsec 5 10 [0, 0, 0, 0, 0, 0] :=
  (C2_fullmodel_extrapolation 5 10 [0, 0, 0, 0, 0, 0] 0 10 1 100 rfl
    (by norm_num) (by norm_num) (by norm_num)).1 (by norm_num)

/-- Unfolding equations of the NaN-able scalar operations. -/
lemma osub_some_some (a b : ℝ) : osub (some a) (some b) = some (a - b) := rfl

/-- NaN on the left propagates through subtraction. -/
lemma osub_none_left (b : Option ℝ) : osub none b = none := rfl

/-- NaN on the right propagates through subtraction. -/
lemma osub_none_right (a : Option ℝ) : osub a none = none := by cases a <;> rfl

/-- Squaring a finite NaN-able scalar. -/
lemma osq_some (a : ℝ) : osq (some a) = some (a ^ 2) := rfl

/-- Squaring NaN. -/
lemma osq_none : osq none = none := rfl

/-- Head step of `nansum` on a finite entry. -/
lemma nansum_cons_some (r : ℝ) (l : List (Option ℝ)) :
    nansum (some r :: l) = r + nansum l := by
  simp [nansum]

/-- Head step of `nansum` on a NaN entry. -/
lemma nansum_cons_none (l : List (Option ℝ)) :
    nansum (none :: l) = nansum l := by
  simp [nansum]

/-- NaN-skipping sum of squared differences against pairs of the zipped
lists: the spec-shaped reading of SSE. -/
lemma nansum_zipWith_osub_sq (y yfit : List (Option ℝ)) :
    nansum ((List.zipWith osub y yfit).map osq)
      = ((y.zip yfit).filterMap (fun pr =>
          match pr with
          | (some a, some b) => some ((a - b) ^ 2)
          | _ => none)).sum := by
  induction y generalizing yfit with
  | nil => simp [nansum]
  | cons a ys ih =>
    cases yfit with
    | nil => simp [nansum]
    | cons b zs =>
      cases a with
      | none =>
        simp only [List.zipWith_cons_cons, List.map_cons, osub_none_left, osq_none,
          nansum_cons_none, List.zip_cons_cons, List.filterMap_cons]
        exact ih zs
      | some av =>
        cases b with
        | none =>
          simp only [List.zipWith_cons_cons, List.map_cons, osub_none_right, osq_none,
            nansum_cons_none, List.zip_cons_cons, List.filterMap_cons]
          exact ih zs
        | some bv =>
          simp only [List.zipWith_cons_cons, List.map_cons, osub_some_some, osq_some,
            nansum_cons_some, List.zip_cons_cons, List.filterMap_cons, List.sum_cons]
          rw [ih zs]

/-- NaN-skipping sum of squared deviations from a finite constant. -/
lemma nansum_osub_const_sq (y : List (Option ℝ)) (m : ℝ) :
    nansum ((y.map (fun yi => osub yi (some m))).map osq)
      = ((y.filterMap id).map (fun a => (a - m) ^ 2)).sum := by
  induction y with
  | nil => simp [nansum]
  | cons a ys ih =>
    cases a with
    | none =>
      simp only [List.map_cons, osub_none_left, osq_none, nansum_cons_none,
        List.filterMap_cons]
      exact ih
    | some av =>
      simp only [List.map_cons, osub_some_some, osq_some, nansum_cons_some,
        List.filterMap_cons, id_eq, List.sum_cons]
      rw [ih]

/-- With every entry NaN-subtracted from NaN, the NaN-skipping sum of
squares is zero. -/
lemma nansum_osub_none_sq (y : List (Option ℝ)) :
    nansum ((y.map (fun yi => osub yi none)).map osq) = 0 := by
  induction y with
  | nil => simp [nansum]
  | cons a ys ih => simpa [nansum, osub, osq] using ih

/-- C3 counterexample: at `y = [NaN, 0, 2]`, `yfit = [0, 0, 0]`, `k = 2` the
code returns `-3` (it uses `n = len(y) = 3`), while the claimed formula with
`n` = the non-NaN count (= 2 = k) would be undefined (NaN). -/
theorem C3_counterexample_len_vs_count :
    calc_Rsquare [none, some 0, some 2] [some 0, some 0, some 0] 2 = some (-3) ∧
    adjusted_r_squared_claimed [none, some 0, some 2] [some 0, some 0, some 0] 2 = none := by
  constructor
  · have hm : nanmean [none, some 0, some 2] = some 1 := by
      norm_num [nanmean, List.filterMap_cons]
    simp only [calc_Rsquare, hm]
    norm_num [nansum, osub, osq, List.filterMap_cons]
  · simp [adjusted_r_squared_claimed]

/-- C3 (amended): `calc_Rsquare` computes the NaN-skipping SSE and SST and
uses `n = len(y)` (the total length, NaN entries included); it returns NaN
exactly when `SST = 0` or `len(y) = k`, and otherwise
`1 - SSE (n-1) / (SST (n-k))`. -/
theorem C3_adjusted_r_squared_amended (y yfit : List (Option ℝ)) (k : ℕ) :
    calc_Rsquare y yfit k =
      (let SSE := ((y.zip yfit).filterMap (fun pr =>
          match pr with
          | (some a, some b) => some ((a - b) ^ 2)
          | _ => none)).sum
       let v := y.filterMap id
       let SST := (v.map (fun a => (a - v.sum / v.length) ^ 2)).sum
       if SST = 0 ∨ y.length = k then none
       else some (1 - SSE * ((y.length : ℝ) - 1) / (SST * ((y.length : ℝ) - (k : ℝ))))) := by
  have hguard : ((y.length : ℤ) - (k : ℤ) = 0) ↔ y.length = k := by
    omega
  by_cases hv : (y.filterMap id).length = 0
  · have hm : nanmean y = none := by simp [nanmean, hv]
    have hnil : y.filterMap id = [] := List.length_eq_zero.mp hv
    have hSST : nansum ((y.map (fun yi => osub yi (nanmean y))).map osq) = 0 := by
      rw [hm]
      exact nansum_osub_none_sq y
    simp only [calc_Rsquare, hSST, hnil]
    rw [if_pos (Or.inl trivial), if_pos (Or.inl (by simp))]
  · have hm : nanmean y = some ((y.filterMap id).sum / (y.filterMap id).length) := by
      simp [nanmean, hv]
    have hSST : nansum ((y.map (fun yi => osub yi (nanmean y))).map osq)
        = ((y.filterMap id).map (fun a =>
            (a - (y.filterMap id).sum / (y.filterMap id).length) ^ 2)).sum := by
      rw [hm]
      exact nansum_osub_const_sq y _
    simp only [calc_Rsquare, hSST, nansum_zipWith_osub_sq, hguard]

/-- Length of the triple zip when the three arrays have equal length. -/
lemma zip3F_length (T P Xsec : List FVal) (hP : P.length = T.length)
    (hX : Xsec.length = T.length) : (zip3F T P Xsec).length = T.length := by
  induction T generalizing P Xsec with
  | nil =>
    cases P with
    | nil => cases Xsec <;> simp [zip3F, List.zipWith3]
    | cons p ps => simp at hP
  | cons t ts ih =>
    cases P with
    | nil => simp at hP
    | cons p ps =>
      cases Xsec with
      | nil => simp at hX
      | cons x xs =>
        simp only [List.length_cons, Nat.add_right_cancel_iff] at hP hX
        simp only [zip3F, List.zipWith3, List.length_cons, Nat.add_right_cancel_iff]
        exact ih ps xs hP hX

/-- Triple zip of three equally long constant arrays. -/
lemma zip3F_replicate (n : ℕ) (a b c : FVal) :
    zip3F (List.replicate n a) (List.replicate n b) (List.replicate n c)
      = List.replicate n (a, b, c) := by
  induction n with
  | zero => rfl
  | succ m ih =>
    simp only [List.replicate_succ, zip3F, List.zipWith3] at ih ⊢
    rw [ih]

/-- C5: when every sample is invalid (each triple has an infinite or NaN
value among T, log10 P, sqrt Xsec), `fit_xsec_data` skips fitting and returns
the degenerate record: zero coefficients, NaN diagnostics, envelope
sentinels (+inf, -inf), and zero sample count. -/
theorem C5_degenerate_all_invalid (lstsq : LstsqFun) (T P Xsec : List FVal)
    (min_deltaLogP min_deltaT : ℝ)
    (hP : P.length = T.length) (hX : Xsec.length = T.length)
    (hbad : ∀ tr ∈ zip3F T P Xsec, isbadF tr = true) :
    fit_xsec_data lstsq T P Xsec min_deltaLogP min_deltaT =
      { formula := fitFormula
        coeff_names := fitCoeffNames
        coefficients := [0, 0, 0, 0, 0, 0]
        residuum := none
        rank := none
        sgl_val := none
        MinP := FVal.inf
        MaxP := FVal.neginf
        MinT := FVal.inf
        MaxT := FVal.neginf
        NumberOfPoints := 0 } := by
  have hcount : badCountF T P Xsec = T.length := by
    unfold badCountF
    rw [← zip3F_length T P Xsec hP hX, ← List.length_map (zip3F T P Xsec) isbadF]
    refine List.count_eq_length.mpr ?_
    intro b hb
    simp only [List.mem_map] at hb
    obtain ⟨tr, htr, rfl⟩ := hb
    exact (hbad tr htr).symm
  unfold fit_xsec_data
  rw [hcount, if_neg (lt_irrefl _)]

/-- Witness for C5: an all-NaN temperature array of length 10 (with finite
pressures and cross sections) yields the degenerate record. -/
theorem C5_witness :
    fit_xsec_data (fun _ _ => ([], 0, 0, [])) (List.replicate 10 FVal.nan)
        (List.replicate 10 (FVal.finite 1000)) (List.replicate 10 (FVal.finite 1)) 0.2 20 =
      { formula := fitFormula
        coeff_names := fitCoeffNames
        coefficients := [0, 0, 0, 0, 0, 0]
        residuum := none
        rank := none
        sgl_val := none
        MinP := FVal.inf
        MaxP := FVal.neginf
        MinT := FVal.inf
        MaxT := FVal.neginf
        NumberOfPoints := 0 } :=
  C5_degenerate_all_invalid (fun _ _ => ([], 0, 0, [])) _ _ _ 0.2 20
    (by simp) (by simp)
    (by
      intro tr htr
      rw [zip3F_replicate] at htr
      have h := List.eq_of_mem_replicate htr
      subst h
      simp [isbadF, FVal.isnan])

/-- Every row of the full quadratic design has the six model columns. -/
lemma poly22_design_rows (x y : List ℝ) :
    ∀ row ∈ poly22_design x y, row.length = 6 := by
  unfold poly22_design
  induction x generalizing y with
  | nil => intro row h; simp at h
  | cons a xs ih =>
    cases y with
    | nil => intro row h; simp at h
    | cons b ys =>
      intro row h
      rw [List.zipWith_cons_cons] at h
      rcases List.mem_cons.mp h with rfl | h2
      · rfl
      · exact ih ys row h2

/-- C7: whatever the inputs (and for any solver that returns one coefficient
per design column), the coefficients of the fit record have exactly 6
entries, and every position the selected sub-model does not use is exactly
zero, the degenerate branch included. -/
theorem C7_coefficients_shape (lstsq : LstsqFun)
    (hl : ∀ A z, (∀ row ∈ A, row.length = 6) → ((lstsq A z).1).length = 6)
    (T P Xsec : List FVal) (min_deltaLogP min_deltaT : ℝ) :
    (fit_xsec_data lstsq T P Xsec min_deltaLogP min_deltaT).coefficients.length = 6 ∧
    ∀ i ∈ unusedPositions (branchOf T P Xsec min_deltaLogP min_deltaT),
      (fit_xsec_data lstsq T P Xsec min_deltaLogP min_deltaT).coefficients.getD i 0 = 0 := by
  simp only [fit_xsec_data, branchOf, selectBranch]
  split_ifs with h0 h1 h2 h3 h4 h5 h6
  · refine ⟨?_, ?_⟩
    · simp only [fit_poly22]
      exact hl _ _ (poly22_design_rows _ _)
    · simp [unusedPositions]
  · exact ⟨rfl, by intro i hi; fin_cases hi <;> rfl⟩
  · exact ⟨rfl, by intro i hi; fin_cases hi <;> rfl⟩
  · exact ⟨rfl, by intro i hi; fin_cases hi <;> rfl⟩
  · exact ⟨rfl, by intro i hi; fin_cases hi <;> rfl⟩
  · exact ⟨rfl, by intro i hi; fin_cases hi <;> rfl⟩
  · exact ⟨rfl, by intro i hi; fin_cases hi <;> rfl⟩
  · exact ⟨rfl, by intro i hi; fin_cases hi <;> rfl⟩

/-- Witness for C7 at the concrete empty input (degenerate branch) and a
concrete solver returning six coefficients. -/
theorem C7_witness :
    (fit_xsec_data (fun _ _ => ([0, 0, 0, 0, 0, 0], 0, 0, []))
        [] [] [] 0.2 20).coefficients.length = 6 ∧
    ∀ i ∈ unusedPositions (branchOf [] [] [] 0.2 20),
      (fit_xsec_data (fun _ _ => ([0, 0, 0, 0, 0, 0], 0, 0, []))
          [] [] [] 0.2 20).coefficients.getD i 0 = 0 :=
  C7_coefficients_shape (fun _ _ => ([0, 0, 0, 0, 0, 0], 0, 0, []))
    (fun _ _ _ => rfl) [] [] [] 0.2 20

/-- C6: with the default thresholds, temperatures 200..250 K (spread 50 K),
pressure constant at 1000 Pa (log-pressure spread 0) and any six finite
positive cross sections, `fit_xsec_data` takes the quadratic-in-T-only
branch: positions p01, p11, p02 are exactly zero and p00, p10, p20 come from
the 1-D quadratic least-squares fit in T. -/
theorem C6_branch_quadratic_in_T (lstsq : LstsqFun) (a1 a2 a3 a4 a5 a6 : ℝ)
    (h1 : 0 < a1) (h2 : 0 < a2) (h3 : 0 < a3) (h4 : 0 < a4) (h5 : 0 < a5) (h6 : 0 < a6) :
    (fit_xsec_data lstsq
        [FVal.finite 200, FVal.finite 210, FVal.finite 220, FVal.finite 230,
         FVal.finite 240, FVal.finite 250]
        [FVal.finite 1000, FVal.finite 1000, FVal.finite 1000, FVal.finite 1000,
         FVal.finite 1000, FVal.finite 1000]
        [FVal.finite a1, FVal.finite a2, FVal.finite a3, FVal.finite a4,
         FVal.finite a5, FVal.finite a6] 0.2 20).coefficients =
      [(fit_poly2 lstsq [200, 210, 220, 230, 240, 250]
          [Real.sqrt a1, Real.sqrt a2, Real.sqrt a3, Real.sqrt a4,
           Real.sqrt a5, Real.sqrt a6]).1.getD 0 0,
       (fit_poly2 lstsq [200, 210, 220, 230, 240, 250]
          [Real.sqrt a1, Real.sqrt a2, Real.sqrt a3, Real.sqrt a4,
           Real.sqrt a5, Real.sqrt a6]).1.getD 1 0,
       0,
       (fit_poly2 lstsq [200, 210, 220, 230, 240, 250]
          [Real.sqrt a1, Real.sqrt a2, Real.sqrt a3, Real.sqrt a4,
           Real.sqrt a5, Real.sqrt a6]).1.getD 2 0,
       0, 0] := by
  have h1000 : (0 : ℝ) < 1000 := by norm_num
  have hlogb : Real.logb 10 1000 = 3 := by
    rw [show (1000 : ℝ) = 10 ^ (3 : ℕ) by norm_num, Real.logb_pow,
      Real.logb_self_eq_one (by norm_num)]
    norm_num
  have hbadGen : ∀ t v : ℝ, 0 ≤ v →
      isbadF (FVal.finite t, FVal.finite 1000, FVal.finite v) = false := by
    intro t v hv
    simp [isbadF, log10F, sqrtF, FVal.isinf, FVal.isnan, h1000, hv]
  have hb1 := hbadGen 200 a1 h1.le
  have hb2 := hbadGen 210 a2 h2.le
  have hb3 := hbadGen 220 a3 h3.le
  have hb4 := hbadGen 230 a4 h4.le
  have hb5 := hbadGen 240 a5 h5.le
  have hb6 := hbadGen 250 a6 h6.le
  set Tl : List FVal := [FVal.finite 200, FVal.finite 210, FVal.finite 220, FVal.finite 230,
      FVal.finite 240, FVal.finite 250] with hTl
  set Pl : List FVal := [FVal.finite 1000, FVal.finite 1000, FVal.finite 1000, FVal.finite 1000,
      FVal.finite 1000, FVal.finite 1000] with hPl
  set Xl : List FVal := [FVal.finite a1, FVal.finite a2, FVal.finite a3, FVal.finite a4,
      FVal.finite a5, FVal.finite a6] with hXl
  have hval : validData Tl Pl Xl =
      [(FVal.finite 200, FVal.finite 1000, FVal.finite a1),
       (FVal.finite 210, FVal.finite 1000, FVal.finite a2),
       (FVal.finite 220, FVal.finite 1000, FVal.finite a3),
       (FVal.finite 230, FVal.finite 1000, FVal.finite a4),
       (FVal.finite 240, FVal.finite 1000, FVal.finite a5),
       (FVal.finite 250, FVal.finite 1000, FVal.finite a6)] := by
    rw [hTl, hPl, hXl]
    simp [validData, zip3F, List.zipWith3, List.filter, hb1, hb2, hb3, hb4, hb5, hb6]
  have hx : xDataF Tl Pl Xl = [(200 : ℝ), 210, 220, 230, 240, 250] := by
    unfold xDataF
    rw [hval]
    simp [FVal.toReal]
  have hy : yDataF Tl Pl Xl = [(3 : ℝ), 3, 3, 3, 3, 3] := by
    unfold yDataF
    rw [hval]
    simp [log10F, h1000, hlogb, FVal.toReal]
  have hz : zDataF Tl Pl Xl =
      [Real.sqrt a1, Real.sqrt a2, Real.sqrt a3, Real.sqrt a4, Real.sqrt a5, Real.sqrt a6] := by
    unfold zDataF
    rw [hval]
    simp [sqrtF, h1.le, h2.le, h3.le, h4.le, h5.le, h6.le, FVal.toReal]
  have hN : NdataF Tl Pl Xl = 6 := by
    unfold NdataF
    rw [hval]
    rfl
  have hDlp : DeltaLogPOf Tl Pl Xl = 0 := by
    unfold DeltaLogPOf
    rw [hy]
    simp [vmax, vmin]
  have hDt : DeltaTOf Tl Pl Xl = 50 := by
    unfold DeltaTOf
    rw [hx]
    simp only [vmax, vmin, List.foldl]
    norm_num [max_def, min_def]
  have hbc : badCountF Tl Pl Xl = 0 := by
    rw [hTl, hPl, hXl]
    simp [badCountF, zip3F, List.zipWith3, hb1, hb2, hb3, hb4, hb5, hb6]
  have hlen : Tl.length = 6 := by rw [hTl]; rfl
  simp only [fit_xsec_data, hbc, hDlp, hDt, hN, hx, hy, hz, hlen]
  rw [if_pos (by norm_num), if_neg (by norm_num), if_neg (by norm_num), if_pos (by norm_num)]

/-- Witness for C6 with all six cross sections equal to 1 and a concrete
trivial solver. -/
theorem C6_witness :
    (fit_xsec_data (fun _ _ => ([], 0, 0, []))
        [FVal.finite 200, FVal.finite 210, FVal.finite 220, FVal.finite 230,
         FVal.finite 240, FVal.finite 250]
        [FVal.finite 1000, FVal.finite 1000, FVal.finite 1000, FVal.finite 1000,
         FVal.finite 1000, FVal.finite 1000]
        [FVal.finite 1, FVal.finite 1, FVal.finite 1, FVal.finite 1,
         FVal.finite 1, FVal.finite 1] 0.2 20).coefficients =
      [(fit_poly2 (fun _ _ => ([], 0, 0, [])) [200, 210, 220, 230, 240, 250]
          [Real.sqrt 1, Real.sqrt 1, Real.sqrt 1, Real.sqrt 1,
           Real.sqrt 1, Real.sqrt 1]).1.getD 0 0,
       (fit_poly2 (fun _ _ => ([], 0, 0, [])) [200, 210, 220, 230, 240, 250]
          [Real.sqrt 1, Real.sqrt 1, Real.sqrt 1, Real.sqrt 1,
           Real.sqrt 1, Real.sqrt 1]).1.getD 1 0,
       0,
       (fit_poly2 (fun _ _ => ([], 0, 0, [])) [200, 210, 220, 230, 240, 250]
          [Real.sqrt 1, Real.sqrt 1, Real.sqrt 1, Real.sqrt 1,
           Real.sqrt 1, Real.sqrt 1]).1.getD 2 0,
       0, 0] :=
  C6_branch_quadratic_in_T (fun _ _ => ([], 0, 0, [])) 1 1 1 1 1 1
    (by norm_num) (by norm_num) (by norm_num) (by norm_num) (by norm_num) (by norm_num)

/-- C10 (implicit): when the valid log-pressure spread equals
`min_deltaLogP` exactly and the temperature spread is below `min_deltaT`,
no branch of the selection chain fires (the 2-D branches need the
temperature spread, the T-only branches need strict `<` on the log-pressure
spread, the P-only branches need strict `>`), so `fit_xsec_data` falls back
to the constant mean-of-z fit even with more than two valid samples. -/
theorem C10_equality_gap_constant_fallback (lstsq : LstsqFun) (T P Xsec : List FVal)
    (min_deltaLogP min_deltaT : ℝ)
    (hvalid : badCountF T P Xsec < T.length)
    (heq : DeltaLogPOf T P Xsec = min_deltaLogP)
    (hdt : DeltaTOf T P Xsec < min_deltaT)
    (hN : 2 < NdataF T P Xsec) :
    branchOf T P Xsec min_deltaLogP min_deltaT = FitBranch.constantFit ∧
    (fit_xsec_data lstsq T P Xsec min_deltaLogP min_deltaT).coefficients =
      [listMean (zDataF T P Xsec), 0, 0, 0, 0, 0] ∧
    (fit_xsec_data lstsq T P Xsec min_deltaLogP min_deltaT).rank = none := by
  have c1 : ¬(DeltaLogPOf T P Xsec ≥ min_deltaLogP ∧ DeltaTOf T P Xsec > min_deltaT ∧
      NdataF T P Xsec > 5) := by
    rintro ⟨-, hgt, -⟩
    linarith
  have c2 : ¬(DeltaLogPOf T P Xsec ≥ min_deltaLogP ∧ DeltaTOf T P Xsec > min_deltaT ∧
      NdataF T P Xsec > 2) := by
    rintro ⟨-, hgt, -⟩
    linarith
  have c3 : ¬(DeltaLogPOf T P Xsec < min_deltaLogP ∧ DeltaTOf T P Xsec > min_deltaT ∧
      NdataF T P Xsec > 2) := by
    rintro ⟨hlt, -, -⟩
    rw [heq] at hlt
    exact lt_irrefl _ hlt
  have c4 : ¬(DeltaLogPOf T P Xsec < min_deltaLogP ∧ DeltaTOf T P Xsec > min_deltaT ∧
      NdataF T P Xsec > 1) := by
    rintro ⟨hlt, -, -⟩
    rw [heq] at hlt
    exact lt_irrefl _ hlt
  have c5 : ¬(DeltaLogPOf T P Xsec > min_deltaLogP ∧ DeltaTOf T P Xsec < min_deltaT ∧
      NdataF T P Xsec > 2) := by
    rintro ⟨hgt, -, -⟩
    rw [heq] at hgt
    exact lt_irrefl _ hgt
  have c6 : ¬(DeltaLogPOf T P Xsec > min_deltaLogP ∧ DeltaTOf T P Xsec < min_deltaT ∧
      NdataF T P Xsec > 1) := by
    rintro ⟨hgt, -, -⟩
    rw [heq] at hgt
    exact lt_irrefl _ hgt
  simp only [fit_xsec_data, branchOf, selectBranch, if_pos hvalid, if_neg c1, if_neg c2,
    if_neg c3, if_neg c4, if_neg c5, if_neg c6]
  exact ⟨trivial, trivial, trivial⟩

/-- Witness for C10: four valid samples, log-pressures `[0, 1, 0, 1]` whose
spread is exactly the threshold 1, temperature spread 3 < 20: the constant
fallback is selected. -/
theorem C10_witness :
    branchOf [FVal.finite 300, FVal.finite 301, FVal.finite 302, FVal.finite 303]
        [FVal.finite 1, FVal.finite 10, FVal.finite 1, FVal.finite 10]
        [FVal.finite 1, FVal.finite 1, FVal.finite 1, FVal.finite 1] 1 20 =
      FitBranch.constantFit ∧
    (fit_xsec_data (fun _ _ => ([], 0, 0, []))
        [FVal.finite 300, FVal.finite 301, FVal.finite 302, FVal.finite 303]
        [FVal.finite 1, FVal.finite 10, FVal.finite 1, FVal.finite 10]
        [FVal.finite 1, FVal.finite 1, FVal.finite 1, FVal.finite 1] 1 20).coefficients =
      [listMean (zDataF [FVal.finite 300, FVal.finite 301, FVal.finite 302, FVal.finite 303]
          [FVal.finite 1, FVal.finite 10, FVal.finite 1, FVal.finite 10]
          [FVal.finite 1, FVal.finite 1, FVal.finite 1, FVal.finite 1]), 0, 0, 0, 0, 0] ∧
    (fit_xsec_data (fun _ _ => ([], 0, 0, []))
        [FVal.finite 300, FVal.finite 301, FVal.finite 302, FVal.finite 303]
        [FVal.finite 1, FVal.finite 10, FVal.finite 1, FVal.finite 10]
        [FVal.finite 1, FVal.finite 1, FVal.finite 1, FVal.finite 1] 1 20).rank = none :=
  C10_equality_gap_constant_fallback (fun _ _ => ([], 0, 0, []))
    [FVal.finite 300, FVal.finite 301, FVal.finite 302, FVal.finite 303]
    [FVal.finite 1, FVal.finite 10, FVal.finite 1, FVal.finite 10]
    [FVal.finite 1, FVal.finite 1, FVal.finite 1, FVal.finite 1] 1 20
    (by norm_num [badCountF, zip3F, List.zipWith3, isbadF, log10F, sqrtF,
      FVal.isinf, FVal.isnan])
    (by norm_num [DeltaLogPOf, yDataF, validData, zip3F, List.zipWith3, List.filter,
      isbadF, log10F, sqrtF, FVal.isinf, FVal.isnan, FVal.toReal, vmax, vmin,
      max_def, min_def, Real.logb_one, Real.logb_self_eq_one])
    (by norm_num [DeltaTOf, xDataF, validData, zip3F, List.zipWith3, List.filter,
      isbadF, log10F, sqrtF, FVal.isinf, FVal.isnan, FVal.toReal, vmax, vmin,
      max_def, min_def])
    (by norm_num [NdataF, validData, zip3F, List.zipWith3, List.filter,
      isbadF, log10F, sqrtF, FVal.isinf, FVal.isnan])

/-- Entry of an entrywise sum of two lists of the same relevant length. -/
lemma getD_zipWith_add (as bs : List ℝ) (j : ℕ) (hja : j < as.length)
    (hjb : j < bs.length) :
    (List.zipWith (fun u v => u + v) as bs).getD j 0 = as.getD j 0 + bs.getD j 0 := by
  rw [List.getD_eq_getElem _ _ (by rw [List.length_zipWith]; omega),
    List.getD_eq_getElem _ _ hja, List.getD_eq_getElem _ _ hjb, List.getElem_zipWith]

/-- Accumulating bands with `foldl` adds, entry by entry, the interpolated
contribution of each band at the frequency of that entry. -/
lemma foldl_band_getD (temperature pressure : ℝ) (freq : List ℝ) (j : ℕ)
    (hj : j < freq.length) :
    ∀ (bands : List BandData) (acc : List ℝ), acc.length = freq.length →
      (bands.foldl (fun a band => List.zipWith (fun u v => u + v) a
          (freq.map (bandContribution band temperature pressure))) acc).getD j 0
        = acc.getD j 0
          + (bands.map (fun b =>
              bandContribution b temperature pressure (freq.getD j 0))).sum := by
  intro bands
  induction bands with
  | nil =>
    intro acc hacc
    simp
  | cons b bs ih =>
    intro acc hacc
    have hmap : (List.map (bandContribution b temperature pressure) freq).getD j 0
        = bandContribution b temperature pressure (freq.getD j 0) := by
      rw [List.getD_eq_getElem _ _ (by rw [List.length_map]; exact hj), List.getElem_map,
        List.getD_eq_getElem _ _ hj]
    rw [List.foldl_cons,
      ih _ (by rw [List.length_zipWith, hacc, List.length_map, min_self]),
      getD_zipWith_add acc _ j (by rw [hacc]; exact hj) (by rw [List.length_map]; exact hj),
      List.map_cons, List.sum_cons, hmap]
    ring

/-- C8: the assembled spectrum at each target grid point is the sum over all
bands of the linearly interpolated per-bin value of that band at the converted
frequency (wavenumber times speed of light times 100), and a band whose
native frequency range does not contain the point contributes exactly 0. -/
theorem C8_assembler_superposition (wvn_user : List ℝ) (bands : List BandData)
    (temperature pressure : ℝ) (j : ℕ) (hj : j < wvn_user.length) :
    c0 = 299792458 ∧
    (calculate_cross_sections wvn_user bands temperature pressure).getD j 0
      = (bands.map (fun b =>
          bandContribution b temperature pressure (wvn_user.getD j 0 * c0 * 100))).sum ∧
    ∀ b ∈ bands,
      (wvn_user.getD j 0 * c0 * 100 < b.grid.headI ∨
        b.grid.getLastD 0 < wvn_user.getD j 0 * c0 * 100) →
      bandContribution b temperature pressure (wvn_user.getD j 0 * c0 * 100) = 0 := by
  refine ⟨by norm_num [c0], ?_, ?_⟩
  · simp only [calculate_cross_sections]
    rw [foldl_band_getD temperature pressure (wvn_user.map (fun w => w * c0 * 100)) j
      (by rw [List.length_map]; exact hj) bands (wvn_user.map (fun _ => 0))
      (by rw [List.length_map, List.length_map])]
    have h0 : (wvn_user.map (fun _ => (0 : ℝ))).getD j 0 = 0 := by
      rw [List.getD_eq_getElem _ _ (by simpa), List.getElem_map]
    have hfreq : (wvn_user.map (fun w => w * c0 * 100)).getD j 0
        = wvn_user.getD j 0 * c0 * 100 := by
      rw [List.getD_eq_getElem _ _ (by simpa), List.getElem_map,
        List.getD_eq_getElem _ _ hj]
    rw [h0, hfreq, zero_add]
  · intro b hb hout
    simp only [bandContribution, interp1d_fill0]
    rw [if_pos hout]

/-- Witness for C8: one band with native grid `[0, 1]` Hz; the single target
wavenumber 1 cm^-1 converts to about 3e10 Hz, far outside the band. -/
theorem C8_witness :
    c0 = 299792458 ∧
    (calculate_cross_sections [1]
        [{ grid := [0, 1], coeffs := [[0, 0, 0, 0, 0, 0], [0, 0, 0, 0, 0, 0]], MinP := 1, MaxP := 10, MinT := 0, MaxT := 1 }] 273 101300).getD 0 0
      = ([({ grid := [0, 1], coeffs := [[0, 0, 0, 0, 0, 0], [0, 0, 0, 0, 0, 0]], MinP := 1, MaxP := 10, MinT := 0, MaxT := 1 } : BandData)].map (fun b =>
          bandContribution b 273 101300 (([1] : List ℝ).getD 0 0 * c0 * 100))).sum ∧
    ∀ b ∈ [({ grid := [0, 1], coeffs := [[0, 0, 0, 0, 0, 0], [0, 0, 0, 0, 0, 0]], MinP := 1, MaxP := 10, MinT := 0, MaxT := 1 } : BandData)],
      (([1] : List ℝ).getD 0 0 * c0 * 100 < b.grid.headI ∨
        b.grid.getLastD 0 < ([1] : List ℝ).getD 0 0 * c0 * 100) →
      bandContribution b 273 101300 (([1] : List ℝ).getD 0 0 * c0 * 100) = 0 :=
  C8_assembler_superposition [1]
    [{ grid := [0, 1], coeffs := [[0, 0, 0, 0, 0, 0], [0, 0, 0, 0, 0, 0]], MinP := 1, MaxP := 10, MinT := 0, MaxT := 1 }] 273 101300 0 (by norm_num)
/-- A sum of squares is non-negative. -/
lemma sumSq_nonneg (l : List ℝ) : 0 ≤ sumSq l := by
  unfold sumSq
  refine List.sum_nonneg ?_
  intro x hx
  simp only [List.mem_map] at hx
  obtain ⟨t, -, rfl⟩ := hx
  exact sq_nonneg t

/-- A real list of length 6 is a six-element literal. -/
lemma list_len6_cases (q : List ℝ) (hq : q.length = 6) :
    ∃ a b c d e f : ℝ, q = [a, b, c, d, e, f] := by
  rcases q with _ | ⟨a, _ | ⟨b, _ | ⟨c, _ | ⟨d, _ | ⟨e, _ | ⟨f, _ | ⟨g, q⟩⟩⟩⟩⟩⟩⟩ <;>
    simp only [List.length_cons, List.length_nil] at hq
  all_goals try omega
  exact ⟨a, b, c, d, e, f, rfl⟩

/-- The residual of the candidate `[1/4, 1, 1, 1/4, 1/4, 1/4]` on the
six-column design of `fit_poly11` at `x = [0,1,2,0]`, `y = [0,0,1,1]`,
`z = [1,2,4,2]` vanishes, so it is a least-squares solution. -/
lemma c1_p6_lsq :
    IsLSQSol (poly11_design [0, 1, 2, 0] [0, 0, 1, 1]) [1, 2, 4, 2]
      [1 / 4, 1, 1, 1 / 4, 1 / 4, 1 / 4] := by
  intro q hq
  have h0 : sumSq (residualsL (poly11_design [0, 1, 2, 0] [0, 0, 1, 1]) [1, 2, 4, 2]
      [1 / 4, 1, 1, 1 / 4, 1 / 4, 1 / 4]) = 0 := by
    norm_num [residualsL, dotL, sumSq, poly11_design]
  rw [h0]
  exact sumSq_nonneg _

/-- Any least-squares solution of the six-column design at the C1 data fits
the data exactly: its slope entries are 1 and the four duplicated all-ones
columns share a combined weight of 1. -/
lemma c1_exact_of_lsq (a b c d e f : ℝ)
    (h : IsLSQSol (poly11_design [0, 1, 2, 0] [0, 0, 1, 1]) [1, 2, 4, 2]
      [a, b, c, d, e, f]) :
    b = 1 ∧ c = 1 ∧ a + d + e + f = 1 := by
  have hle := h [1 / 4, 1, 1, 1 / 4, 1 / 4, 1 / 4] rfl
  norm_num [residualsL, dotL, sumSq, poly11_design] at hle
  have h1 : (a + d + e + f - 1) ^ 2 ≤ 0 := by
    nlinarith [sq_nonneg (a + b + d + e + f - 2),
      sq_nonneg (a + 2 * b + c + d + e + f - 4), sq_nonneg (a + c + d + e + f - 2)]
  have h2 : (a + b + d + e + f - 2) ^ 2 ≤ 0 := by
    nlinarith [sq_nonneg (a + d + e + f - 1),
      sq_nonneg (a + 2 * b + c + d + e + f - 4), sq_nonneg (a + c + d + e + f - 2)]
  have h4 : (a + c + d + e + f - 2) ^ 2 ≤ 0 := by
    nlinarith [sq_nonneg (a + d + e + f - 1),
      sq_nonneg (a + 2 * b + c + d + e + f - 4), sq_nonneg (a + b + d + e + f - 2)]
  have e1 := sq_eq_zero_iff.mp (le_antisymm h1 (sq_nonneg _))
  have e2 := sq_eq_zero_iff.mp (le_antisymm h2 (sq_nonneg _))
  have e4 := sq_eq_zero_iff.mp (le_antisymm h4 (sq_nonneg _))
  exact ⟨by linarith, by linarith, by linarith⟩

/-- Among the exact solutions of the six-column system, the euclidean norm
is minimised by splitting the unit intercept evenly over the four duplicated
columns. -/
lemma c1_minnorm_bound (a b c d e f : ℝ) (hb : b = 1) (hc : c = 1)
    (hs : a + d + e + f = 1) :
    sumSq [1 / 4, 1, 1, 1 / 4, 1 / 4, 1 / 4] ≤ sumSq [a, b, c, d, e, f] := by
  subst hb
  subst hc
  simp only [sumSq, List.map_cons, List.map_nil, List.sum_cons, List.sum_nil]
  nlinarith [sq_nonneg (a - d), sq_nonneg (a - e), sq_nonneg (a - f),
    sq_nonneg (d - e), sq_nonneg (d - f), sq_nonneg (e - f), hs]

/-- At minimal norm the four duplicated weights coincide, pinning the stored
first coefficient to 1/4. -/
lemma c1_minnorm_unique (a d e f : ℝ) (hs : a + d + e + f = 1)
    (hle : a ^ 2 + d ^ 2 + e ^ 2 + f ^ 2 ≤ 1 / 4) : a = 1 / 4 := by
  have key : (a - d) ^ 2 + (a - e) ^ 2 + (a - f) ^ 2 + (d - e) ^ 2 + (d - f) ^ 2
      + (e - f) ^ 2 ≤ 0 := by
    nlinarith [hs, hle]
  have h1 : (a - d) ^ 2 ≤ 0 := by
    nlinarith [sq_nonneg (a - e), sq_nonneg (a - f), sq_nonneg (d - e),
      sq_nonneg (d - f), sq_nonneg (e - f)]
  have h2 : (a - e) ^ 2 ≤ 0 := by
    nlinarith [sq_nonneg (a - d), sq_nonneg (a - f), sq_nonneg (d - e),
      sq_nonneg (d - f), sq_nonneg (e - f)]
  have h3 : (a - f) ^ 2 ≤ 0 := by
    nlinarith [sq_nonneg (a - d), sq_nonneg (a - e), sq_nonneg (d - e),
      sq_nonneg (d - f), sq_nonneg (e - f)]
  have e1 := sq_eq_zero_iff.mp (le_antisymm h1 (sq_nonneg _))
  have e2 := sq_eq_zero_iff.mp (le_antisymm h2 (sq_nonneg _))
  have e3 := sq_eq_zero_iff.mp (le_antisymm h3 (sq_nonneg _))
  linarith

/-- The data `z = 1 + x + y` is fit exactly by `[1, 1, 1]` on the documented
three-column design, so that is a least-squares solution. -/
lemma c1_documented_lsq :
    IsLSQSol (poly11_design_documented [0, 1, 2, 0] [0, 0, 1, 1]) [1, 2, 4, 2]
      [1, 1, 1] := by
  intro q hq
  have h0 : sumSq (residualsL (poly11_design_documented [0, 1, 2, 0] [0, 0, 1, 1])
      [1, 2, 4, 2] [1, 1, 1]) = 0 := by
    norm_num [residualsL, dotL, sumSq, poly11_design_documented]
  rw [h0]
  exact sumSq_nonneg _

/-- C1 (code bug): at `x = [0,1,2,0]`, `y = [0,0,1,1]`, `z = 1 + x + y`
(that is `[1,2,4,2]`), the design matrix `fit_poly11` actually builds (six
columns, four of them all-ones) has the minimum-norm least-squares solution
`[1/4, 1, 1, 1/4, 1/4, 1/4]` — uniquely, so `scipy.linalg.lstsq` returns
`p[0] = 1/4` — while the documented three-column model `[1, x, y]` has the
least-squares intercept `p00 = 1`, again uniquely. The stored bilinear
coefficients are therefore not those of the documented model. -/
theorem C1_fit_poly11_six_column_bug :
    IsMinNormLSQSol (poly11_design [0, 1, 2, 0] [0, 0, 1, 1]) [1, 2, 4, 2]
      [1 / 4, 1, 1, 1 / 4, 1 / 4, 1 / 4] ∧
    (∀ a b c d e f : ℝ,
      IsMinNormLSQSol (poly11_design [0, 1, 2, 0] [0, 0, 1, 1]) [1, 2, 4, 2]
        [a, b, c, d, e, f] → a = 1 / 4) ∧
    IsLSQSol (poly11_design_documented [0, 1, 2, 0] [0, 0, 1, 1]) [1, 2, 4, 2]
      [1, 1, 1] ∧
    (∀ a b c : ℝ,
      IsLSQSol (poly11_design_documented [0, 1, 2, 0] [0, 0, 1, 1]) [1, 2, 4, 2]
        [a, b, c] → a = 1) := by
  refine ⟨⟨c1_p6_lsq, ?_⟩, ?_, c1_documented_lsq, ?_⟩
  · intro q hq hql
    obtain ⟨a, b, c, d, e, f, rfl⟩ := list_len6_cases q hq
    obtain ⟨hb, hc, hs⟩ := c1_exact_of_lsq a b c d e f hql
    exact c1_minnorm_bound a b c d e f hb hc hs
  · intro a b c d e f h
    obtain ⟨hql, hmin⟩ := h
    obtain ⟨hb, hc, hs⟩ := c1_exact_of_lsq a b c d e f hql
    have hle := hmin [1 / 4, 1, 1, 1 / 4, 1 / 4, 1 / 4] rfl c1_p6_lsq
    have hle2 : a ^ 2 + d ^ 2 + e ^ 2 + f ^ 2 ≤ 1 / 4 := by
      subst hb
      subst hc
      simp only [sumSq, List.map_cons, List.map_nil, List.sum_cons, List.sum_nil] at hle
      linarith [hle]
    exact c1_minnorm_unique a d e f hs hle2
  · intro a b c h
    have hle := h [1, 1, 1] rfl
    norm_num [residualsL, dotL, sumSq, poly11_design_documented] at hle
    have h1 : (a - 1) ^ 2 ≤ 0 := by
      nlinarith [sq_nonneg (a + b - 2), sq_nonneg (a + 2 * b + c - 4),
        sq_nonneg (a + c - 2)]
    have := sq_eq_zero_iff.mp (le_antisymm h1 (sq_nonneg _))
    linarith
end XsecAux
